import Mathlib

/-
Verification of the sbom-validator library (Go) against its design
specification.  The Go sources are embedded shallowly: parsed JSON values
become an inductive `JsonVal`, the syntactic JSON check done by
encoding/json becomes an executable recursive-descent parser
`parseJSONText`, Go maps built by json.Unmarshal become association lists
with last-binding-wins lookup, and each library function becomes a Lean
function of the same name returning `Except`/`GoResult` in place of
Go multi-value returns.  The external JSON Schema engine (gojsonschema)
and the embedded schema corpus are build-time collaborators of the
library, so they are passed in as explicit parameters (`SchemaEngine`,
an association list for the embedded file system); theorems quantify
over them.
-/

/-- A parsed JSON value, as produced by encoding/json into a dynamically
typed Go value.  Numbers keep their lexeme; their numeric value is never
inspected by the library. -/
inductive JsonVal where
  | obj (fields : List (String × JsonVal))
  | arr (items : List JsonVal)
  | str (value : String)
  | num (lexeme : String)
  | bool (value : Bool)
  | null

/-- Whitespace characters accepted between JSON tokens. -/
def isJsonSpace : Char → Bool
  | ' ' | '\n' | '\t' | '\r' => true
  | _ => false

/-- Drop leading JSON whitespace. -/
def skipWs (cs : List Char) : List Char :=
  cs.dropWhile isJsonSpace

/-- The single-character JSON string escape table (the \u form is not
modelled; no input considered in this development uses it). -/
def escTable : List (Char × Char) :=
  [('"', '"'), ('\\', '\\'), ('/', '/'), ('n', '\n'),
    ('t', '\t'), ('r', '\r'), ('b', Char.ofNat 8), ('f', Char.ofNat 12)]

/-- Decode one escape character through the table. -/
def escChar (c : Char) : Option Char :=
  (escTable.find? (fun p => p.fst == c)).map Prod.snd

/-- Parse the body of a JSON string after the opening quote, returning the
decoded string and the remaining input. -/
def parseStringBody : List Char → List Char → Option (String × List Char)
  | acc, '"' :: rest => some (String.mk acc.reverse, rest)
  | acc, '\\' :: e :: rest =>
    match escChar e with
    | some d => parseStringBody (d :: acc) rest
    | none => none
  | _, '\\' :: [] => none
  | acc, c :: rest => parseStringBody (c :: acc) rest
  | _, [] => none

/-- Characters that may occur inside a JSON number lexeme. -/
def isNumChar (c : Char) : Bool :=
  c.isDigit || c == '-' || c == '+' || c == '.' || c == 'e' || c == 'E'

/-- Parse a JSON number lexeme (the grammar is slightly lax about the
internal shape of the lexeme; every claim is insensitive to this). -/
def parseNumberLex (cs : List Char) : Option (JsonVal × List Char) :=
  let lex := cs.takeWhile isNumChar
  if lex.any Char.isDigit then
    some (JsonVal.num (String.mk lex), cs.drop lex.length)
  else none

mutual

/-- Parse one JSON value; the fuel bounds recursion depth. -/
def parseVal : Nat → List Char → Option (JsonVal × List Char)
  | 0, _ => none
  | Nat.succ fuel, cs =>
    match skipWs cs with
    | [] => none
    | 'n' :: 'u' :: 'l' :: 'l' :: rest => some (JsonVal.null, rest)
    | 't' :: 'r' :: 'u' :: 'e' :: rest => some (JsonVal.bool true, rest)
    | 'f' :: 'a' :: 'l' :: 's' :: 'e' :: rest => some (JsonVal.bool false, rest)
    | '"' :: rest =>
      match parseStringBody [] rest with
      | some (s, rest1) => some (JsonVal.str s, rest1)
      | none => none
    | '[' :: rest => parseElems fuel rest []
    | '\x7b' :: rest => parseMembers fuel rest []
    | c :: rest =>
      if c.isDigit || c == '-' then parseNumberLex (c :: rest) else none

/-- Parse the elements of a JSON array after the opening bracket. -/
def parseElems : Nat → List Char → List JsonVal → Option (JsonVal × List Char)
  | 0, _, _ => none
  | Nat.succ fuel, cs, acc =>
    match skipWs cs with
    | ']' :: rest => if acc.isEmpty then some (JsonVal.arr [], rest) else none
    | cs1 =>
      match parseVal fuel cs1 with
      | none => none
      | some (v, rest) =>
        match skipWs rest with
        | ',' :: rest1 => parseElems fuel rest1 (v :: acc)
        | ']' :: rest1 => some (JsonVal.arr (v :: acc).reverse, rest1)
        | _ => none

/-- Parse the members of a JSON object after the opening brace. -/
def parseMembers : Nat → List Char → List (String × JsonVal) →
    Option (JsonVal × List Char)
  | 0, _, _ => none
  | Nat.succ fuel, cs, acc =>
    match skipWs cs with
    | '\x7d' :: rest => if acc.isEmpty then some (JsonVal.obj [], rest) else none
    | '"' :: rest =>
      match parseStringBody [] rest with
      | none => none
      | some (k, rest1) =>
        match skipWs rest1 with
        | ':' :: rest2 =>
          match parseVal fuel rest2 with
          | none => none
          | some (v, rest3) =>
            match skipWs rest3 with
            | ',' :: rest4 => parseMembers fuel rest4 ((k, v) :: acc)
            | '\x7d' :: rest4 => some (JsonVal.obj ((k, v) :: acc).reverse, rest4)
            | _ => none
        | _ => none
    | _ => none

end

/-- Model of the syntactic JSON check performed by encoding/json: parse a
complete JSON document, rejecting trailing non-whitespace.  Returns the
parsed value on success and `none` on malformed input. -/
def parseJSONText (s : String) : Option JsonVal :=
  let cs := s.data
  match parseVal (2 * cs.length + 8) cs with
  | some (v, rest) => if (skipWs rest).isEmpty then some v else none
  | none => none

/-- Lookup in a Go map built by json.Unmarshal from an object literal:
later bindings of the same key overwrite earlier ones. -/
def mapGet : List (String × JsonVal) → String → Option JsonVal
  | [], _ => none
  | (k, v) :: rest, key =>
    match mapGet rest key with
    | some r => some r
    | none => if k = key then some v else none

/-- The Go two-valued type assertion obj[key].(string): `some s` exactly
when the key is present with a string value. -/
def getStringField (obj : List (String × JsonVal)) (key : String) : Option String :=
  match mapGet obj key with
  | some (JsonVal.str s) => some s
  | _ => none

/-- Kind name of a JSON value, used in modelled encoding/json error text. -/
def typeName : JsonVal → String
  | JsonVal.null => "null"
  | JsonVal.bool _ => "bool"
  | JsonVal.num _ => "number"
  | JsonVal.str _ => "string"
  | JsonVal.arr _ => "array"
  | JsonVal.obj _ => "object"

/-- Model of json.Unmarshal into a Go map variable.  A top-level object
yields its fields; the JSON literal null leaves the map nil (documented
encoding/json behaviour), modelled as the empty association list; any
other top-level value is a type error; malformed input is a syntax
error.  The error strings stand in for the dynamic messages that
encoding/json produces. -/
def goUnmarshalMap (s : String) : Except String (List (String × JsonVal)) :=
  match parseJSONText s with
  | none => Except.error "invalid JSON syntax"
  | some (JsonVal.obj kvs) => Except.ok kvs
  | some JsonVal.null => Except.ok []
  | some v => Except.error ("json: cannot unmarshal " ++ typeName v ++ " into map")

/-- Go constant SBOM_CYCLONEDX. -/
def SBOM_CYCLONEDX : String := "CycloneDX"

/-- Go constant SBOM_SPDX (the pipeline snapshot value "SPDX"; the
exported validator.go snapshot spells it "spdx", but no function under
verification reads that constant). -/
def SBOM_SPDX : String := "SPDX"

/-- The result triple (valid, violations, err) returned by the Go
validation functions.  A nil Go slice is modelled as the empty list. -/
structure GoResult where
  valid : Bool
  violations : List String
  err : Option String
deriving DecidableEq

/-- The external JSON Schema engine (gojsonschema), a build-time
collaborator: `compile` returns `some msg` when gojsonschema.NewSchema
fails on the schema text, and `validate` models gojsonschema.Validate,
returning either a hard error or the list of violation description
strings; per the gojsonschema sources, Result.Valid() is true exactly
when that list is empty. -/
structure SchemaEngine where
  compile : String → Option String
  validate : String → String → Except String (List String)

/-- isJSON from utils.go: json.Unmarshal into a RawMessage succeeds
exactly when the input is syntactically valid JSON. -/
def isJSON (data : String) : Bool :=
  (parseJSONText data).isSome

/-- isValidJSON from validator.go, same check as isJSON. -/
def isValidJSON (jsonStr : String) : Bool :=
  (parseJSONText jsonStr).isSome

/-- ParseJSON: json.Unmarshal into a map, wrapping any unmarshal error
as "failed to parse JSON: ...". -/
def ParseJSON (jsonData : String) : Except String (List (String × JsonVal)) :=
  match goUnmarshalMap jsonData with
  | Except.error e => Except.error ("failed to parse JSON: " ++ e)
  | Except.ok obj => Except.ok obj

/-- splitFirstHyphen cs = (prefix before the first hyphen, rest after it
when a hyphen occurs). -/
def splitFirstHyphen : List Char → List Char × Option (List Char)
  | [] => ([], none)
  | c :: cs =>
    if c = '-' then ([], some cs)
    else
      let r := splitFirstHyphen cs
      (c :: r.1, r.2)

/-- strings.SplitN s "-" 2: one part when s has no hyphen, otherwise the
part before the first hyphen and everything after it. -/
def goSplitN2Hyphen (s : String) : List String :=
  match splitFirstHyphen s.data with
  | (pre, none) => [String.mk pre]
  | (pre, some post) => [String.mk pre, String.mk post]

/-- getSPDXVersion from utils.go: split the SPDX version marker on the
first hyphen and return the suffix; fail when there is no hyphen or the
suffix is empty. -/
def getSPDXVersion (spdxVersion : String) : Except String String :=
  match goSplitN2Hyphen spdxVersion with
  | [_, post] =>
    if post = "" then Except.error ("invalid SPDX version format: " ++ spdxVersion)
    else Except.ok post
  | _ => Except.error ("invalid SPDX version format: " ++ spdxVersion)

/-- detectSBOMType (pipeline snapshot): classify by the bomFormat marker
first, returning its string value; otherwise a string spdxVersion marker
yields the SPDX-unsupported error; otherwise the unknown-type error. -/
def detectSBOMType (jsonData : String) : Except String String :=
  match ParseJSON jsonData with
  | Except.error e => Except.error e
  | Except.ok obj =>
    match getStringField obj "bomFormat" with
    | some bomFormat => Except.ok bomFormat
    | none =>
      match getStringField obj "spdxVersion" with
      | some spdxVersion =>
        Except.error ("SPDX is not currently supported - " ++ spdxVersion)
      | none => Except.error "unknown SBOM type or missing required fields"

/-- DetectSBOMType from validator.go: unmarshal the document and return
the bomFormat string value, with one error for missing or non-string. -/
def DetectSBOMType (jsonData : String) : Except String String :=
  match goUnmarshalMap jsonData with
  | Except.error _ => Except.error "invalid JSON format"
  | Except.ok obj =>
    match getStringField obj "bomFormat" with
    | some bomFormat => Except.ok bomFormat
    | none => Except.error "\"bomFormat\" field missing or not a string"

/-- extractSBOMVersion (pipeline snapshot): read the dialect-specific
version marker field as a string. -/
def extractSBOMVersion (jsonData : String) (sbomType : String) : Except String String :=
  match goUnmarshalMap jsonData with
  | Except.error _ => Except.error "invalid JSON format"
  | Except.ok obj =>
    if sbomType = SBOM_CYCLONEDX then
      match getStringField obj "specVersion" with
      | some version => Except.ok version
      | none => Except.error "\"specVersion\" field missing or not a string"
    else if sbomType = SBOM_SPDX then
      match getStringField obj "spdxVersion" with
      | some version => Except.ok version
      | none => Except.error "\"spdxVersion\" field missing or not a string"
    else Except.error "unknown SBOM Format"

/-- ExtractVersion from validator.go: the CycloneDX-only variant. -/
def ExtractVersion (jsonData : String) (sbomType : String) : Except String String :=
  match goUnmarshalMap jsonData with
  | Except.error _ => Except.error "invalid JSON format"
  | Except.ok obj =>
    if sbomType = "CycloneDX" then
      match getStringField obj "specVersion" with
      | some version => Except.ok version
      | none => Except.error "\"specVersion\" field missing or not a string"
    else Except.error "unknown SBOM Format"

/-- embed.FS ReadFile over the build-time schema corpus, modelled as an
association list from file name to content. -/
def fsReadFile (fs : List (String × String)) (name : String) : Option String :=
  (fs.find? (fun p => p.1 == name)).map Prod.snd

/-- LoadSchema from validator.go: only CycloneDX is supported; build the
schema file name from the version and read it from the embedded corpus,
wrapping the not-found error of embed.FS (which names the file). -/
def LoadSchema (fs : List (String × String)) (version : String)
    (sbomType : String) : Except String String :=
  if sbomType ≠ SBOM_CYCLONEDX then
    Except.error ("unsupported SBOM type: " ++ sbomType)
  else
    match fsReadFile fs ("schemas/cyclonedx/bom-" ++ version ++ ".schema.json") with
    | none =>
      Except.error ("failed to read embedded schema file: open " ++
        ("schemas/cyclonedx/bom-" ++ version ++ ".schema.json") ++
        ": file does not exist")
    | some data => Except.ok data

/-- loadSBOMSchema (pipeline snapshot), identical to LoadSchema. -/
def loadSBOMSchema (fs : List (String × String)) (version : String)
    (sbomType : String) : Except String String :=
  if sbomType ≠ SBOM_CYCLONEDX then
    Except.error ("unsupported SBOM type: " ++ sbomType)
  else
    match fsReadFile fs ("schemas/cyclonedx/bom-" ++ version ++ ".schema.json") with
    | none =>
      Except.error ("failed to read embedded schema file: open " ++
        ("schemas/cyclonedx/bom-" ++ version ++ ".schema.json") ++
        ": file does not exist")
    | some data => Except.ok data

/-- ValidateSBOM from validator.go: check the document is valid JSON,
compile the schema, run the engine, and aggregate violations; the valid
flag is gojsonschema Result.Valid(), that is emptiness of the violation
list. -/
def ValidateSBOM (eng : SchemaEngine) (schemaSBOM sbomData : String) : GoResult :=
  if isValidJSON sbomData then
    match eng.compile schemaSBOM with
    | some msg => ⟨false, [], some ("invalid schema format: " ++ msg)⟩
    | none =>
      match eng.validate schemaSBOM sbomData with
      | Except.error e => ⟨false, [], some e⟩
      | Except.ok errs =>
        if errs.isEmpty then ⟨true, [], none⟩ else ⟨false, errs, none⟩
  else ⟨false, [], some "invalid JSON format"⟩

/-- validateSBOM (pipeline snapshot), identical to ValidateSBOM. -/
def validateSBOM (eng : SchemaEngine) (schemaSBOM sbomData : String) : GoResult :=
  if isValidJSON sbomData then
    match eng.compile schemaSBOM with
    | some msg => ⟨false, [], some ("invalid schema format: " ++ msg)⟩
    | none =>
      match eng.validate schemaSBOM sbomData with
      | Except.error e => ⟨false, [], some e⟩
      | Except.ok errs =>
        if errs.isEmpty then ⟨true, [], none⟩ else ⟨false, errs, none⟩
  else ⟨false, [], some "invalid JSON format"⟩

/-- ValidateSBOMData, the top-level entry point: JSON well-formedness
check, type detection, CycloneDX gate, version extraction, schema load,
then structural validation. -/
def ValidateSBOMData (eng : SchemaEngine) (fs : List (String × String))
    (sbomContent : String) : GoResult :=
  if isJSON sbomContent then
    match detectSBOMType sbomContent with
    | Except.error e => ⟨false, [], some ("error detecting SBOM Type " ++ e)⟩
    | Except.ok sbomType =>
      if sbomType ≠ SBOM_CYCLONEDX then
        ⟨false, [], some "only CycloneDX is currenty supported"⟩
      else
        match extractSBOMVersion sbomContent SBOM_CYCLONEDX with
        | Except.error e => ⟨false, [], some ("failed to extract version: " ++ e)⟩
        | Except.ok sbomSchemaVersion =>
          match loadSBOMSchema fs sbomSchemaVersion SBOM_CYCLONEDX with
          | Except.error e => ⟨false, [], some ("failed to load schema: " ++ e)⟩
          | Except.ok schema => validateSBOM eng schema sbomContent
  else ⟨false, [], some "unsupported file format"⟩

/-- An engine that accepts every schema and reports no violations; used
to instantiate engine-quantified theorems at concrete inputs. -/
def trivialEngine : SchemaEngine :=
  ⟨fun _ => none, fun _ _ => Except.ok []⟩

/-- An engine that accepts every schema and reports one fixed violation. -/
def oneErrEngine : SchemaEngine :=
  ⟨fun _ => none, fun _ _ => Except.ok ["violation"]⟩

/-- An engine whose schema compilation always fails. -/
def badSchemaEngine : SchemaEngine :=
  ⟨fun _ => some "compile failed", fun _ _ => Except.error "unreachable"⟩

/-- If a key is bound to a non-string value, the Go string type assertion
on the looked-up value fails, exactly as when the key is absent. -/
theorem getStringField_none_of_not_str (kvs : List (String × JsonVal))
    (key : String) (j : JsonVal) (hj : mapGet kvs key = some j)
    (hns : ∀ t : String, j ≠ JsonVal.str t) :
    getStringField kvs key = none := by
  unfold getStringField
  rw [hj]
  cases j <;> first | rfl | exact absurd rfl (hns _)

/-- splitFirstHyphen splits at the first hyphen of the input. -/
theorem splitFirstHyphen_append (pre : List Char)
    (h : pre.contains '-' = false) (post : List Char) :
    splitFirstHyphen (pre ++ '-' :: post) = (pre, some post) := by
  induction pre with
  | nil => simp [splitFirstHyphen]
  | cons c cs ih =>
    simp only [List.contains_cons, Bool.or_eq_false_iff, beq_eq_false_iff_ne] at h
    simp [splitFirstHyphen, Ne.symm h.1, ih h.2]

/-- splitFirstHyphen leaves a hyphen-free input whole. -/
theorem splitFirstHyphen_no_hyphen (cs : List Char)
    (h : cs.contains '-' = false) :
    splitFirstHyphen cs = (cs, none) := by
  induction cs with
  | nil => rfl
  | cons c cs ih =>
    simp only [List.contains_cons, Bool.or_eq_false_iff, beq_eq_false_iff_ne] at h
    simp [splitFirstHyphen, Ne.symm h.1, ih h.2]

/-- Claim C2: an input that is not syntactically valid JSON at the top
level (the empty input included) makes ValidateSBOMData fail with the
unsupported-file-format error, with no violations, independently of the
schema engine and the embedded corpus (no later pipeline stage runs). -/
theorem validateSBOMData_rejects_non_json (eng : SchemaEngine)
    (fs : List (String × String)) (s : String)
    (h : parseJSONText s = none) :
    ValidateSBOMData eng fs s = ⟨false, [], some "unsupported file format"⟩ := by
  simp [ValidateSBOMData, isJSON, h]

/-- Witness for claim C2 at the empty input. -/
theorem validateSBOMData_rejects_non_json_witness :
    parseJSONText "" = none ∧
    ValidateSBOMData trivialEngine [] "" =
      ⟨false, [], some "unsupported file format"⟩ :=
  ⟨rfl, validateSBOMData_rejects_non_json trivialEngine [] "" rfl⟩

/-- Claim C1, counterexample: on a document carrying only a string
spdxVersion marker, neither detection function classifies the document
as SPDX; both return errors. -/
theorem detect_spdx_marker_claim_cex :
    detectSBOMType "\x7b\"spdxVersion\": \"SPDX-2.3\"\x7d" =
      Except.error "SPDX is not currently supported - SPDX-2.3" ∧
    DetectSBOMType "\x7b\"spdxVersion\": \"SPDX-2.3\"\x7d" =
      Except.error "\"bomFormat\" field missing or not a string" :=
  ⟨rfl, rfl⟩

/-- Claim C1, amended: a parsed document without a string bomFormat field
but with a string spdxVersion field makes detectSBOMType fail with the
SPDX-not-supported error carrying that version value, and DetectSBOMType
fail with its missing-bomFormat error; neither returns an SPDX dialect. -/
theorem detect_spdx_marker_is_error (jsonData : String)
    (kvs : List (String × JsonVal)) (v : String)
    (hp : parseJSONText jsonData = some (JsonVal.obj kvs))
    (hb : getStringField kvs "bomFormat" = none)
    (hs : getStringField kvs "spdxVersion" = some v) :
    detectSBOMType jsonData =
      Except.error ("SPDX is not currently supported - " ++ v) ∧
    DetectSBOMType jsonData =
      Except.error "\"bomFormat\" field missing or not a string" := by
  constructor
  · simp [detectSBOMType, ParseJSON, goUnmarshalMap, hp, hb, hs]
  · simp [DetectSBOMType, goUnmarshalMap, hp, hb]

/-- Witness for the amended claim C1. -/
theorem detect_spdx_marker_is_error_witness :
    detectSBOMType "\x7b\"spdxVersion\": \"SPDX-2.3\"\x7d" =
      Except.error "SPDX is not currently supported - SPDX-2.3" ∧
    DetectSBOMType "\x7b\"spdxVersion\": \"SPDX-2.3\"\x7d" =
      Except.error "\"bomFormat\" field missing or not a string" :=
  detect_spdx_marker_is_error "\x7b\"spdxVersion\": \"SPDX-2.3\"\x7d"
    [("spdxVersion", JsonVal.str "SPDX-2.3")] "SPDX-2.3" rfl rfl rfl

/-- Claim C5: on a dual-tagged document carrying both a string bomFormat
field and a string spdxVersion field, both detection functions classify
by the bomFormat marker and return its value; the SPDX rule is never
applied. -/
theorem detect_dual_tagged_uses_bomFormat (jsonData : String)
    (kvs : List (String × JsonVal)) (b v : String)
    (hp : parseJSONText jsonData = some (JsonVal.obj kvs))
    (hb : getStringField kvs "bomFormat" = some b)
    (_hs : getStringField kvs "spdxVersion" = some v) :
    detectSBOMType jsonData = Except.ok b ∧
    DetectSBOMType jsonData = Except.ok b := by
  constructor
  · simp [detectSBOMType, ParseJSON, goUnmarshalMap, hp, hb]
  · simp [DetectSBOMType, goUnmarshalMap, hp, hb]

/-- Witness for claim C5. -/
theorem detect_dual_tagged_uses_bomFormat_witness :
    detectSBOMType
        "\x7b\"bomFormat\": \"CycloneDX\", \"spdxVersion\": \"SPDX-2.3\"\x7d" =
      Except.ok "CycloneDX" ∧
    DetectSBOMType
        "\x7b\"bomFormat\": \"CycloneDX\", \"spdxVersion\": \"SPDX-2.3\"\x7d" =
      Except.ok "CycloneDX" :=
  detect_dual_tagged_uses_bomFormat
    "\x7b\"bomFormat\": \"CycloneDX\", \"spdxVersion\": \"SPDX-2.3\"\x7d"
    [("bomFormat", JsonVal.str "CycloneDX"),
      ("spdxVersion", JsonVal.str "SPDX-2.3")]
    "CycloneDX" "SPDX-2.3" rfl rfl rfl

/-- Claim C6: a dialect marker field bound to a non-string value is
treated as absent: detectSBOMType falls through to the spdxVersion rule
exactly as it does without the field, and DetectSBOMType reports the
same missing-or-not-string error as for an absent field; no distinct
type error exists. -/
theorem detect_wrong_typed_marker_treated_absent (jsonData : String)
    (kvs : List (String × JsonVal)) (j : JsonVal)
    (hp : parseJSONText jsonData = some (JsonVal.obj kvs))
    (hj : mapGet kvs "bomFormat" = some j)
    (hns : ∀ t : String, j ≠ JsonVal.str t) :
    detectSBOMType jsonData =
      (match getStringField kvs "spdxVersion" with
        | some v => Except.error ("SPDX is not currently supported - " ++ v)
        | none => Except.error "unknown SBOM type or missing required fields") ∧
    DetectSBOMType jsonData =
      Except.error "\"bomFormat\" field missing or not a string" := by
  have hb : getStringField kvs "bomFormat" = none :=
    getStringField_none_of_not_str kvs "bomFormat" j hj hns
  constructor
  · simp [detectSBOMType, ParseJSON, goUnmarshalMap, hp, hb]
  · simp [DetectSBOMType, goUnmarshalMap, hp, hb]

/-- Witness for claim C6 at a document whose bomFormat is the number 123
next to a string spdxVersion. -/
theorem detect_wrong_typed_marker_treated_absent_witness :
    detectSBOMType "\x7b\"bomFormat\": 123, \"spdxVersion\": \"SPDX-2.3\"\x7d" =
      Except.error "SPDX is not currently supported - SPDX-2.3" ∧
    DetectSBOMType "\x7b\"bomFormat\": 123, \"spdxVersion\": \"SPDX-2.3\"\x7d" =
      Except.error "\"bomFormat\" field missing or not a string" :=
  detect_wrong_typed_marker_treated_absent
    "\x7b\"bomFormat\": 123, \"spdxVersion\": \"SPDX-2.3\"\x7d"
    [("bomFormat", JsonVal.num "123"), ("spdxVersion", JsonVal.str "SPDX-2.3")]
    (JsonVal.num "123") rfl rfl (fun _ h => JsonVal.noConfusion h)

/-- Claim C9: detection returns the bomFormat string value verbatim,
whatever it is, and ValidateSBOMData then rejects any value other than
CycloneDX with its only-CycloneDX error. -/
theorem detect_returns_bomFormat_verbatim (jsonData : String)
    (kvs : List (String × JsonVal)) (s : String)
    (hp : parseJSONText jsonData = some (JsonVal.obj kvs))
    (hb : getStringField kvs "bomFormat" = some s) :
    detectSBOMType jsonData = Except.ok s ∧
    DetectSBOMType jsonData = Except.ok s ∧
    (∀ (eng : SchemaEngine) (fs : List (String × String)),
      s ≠ SBOM_CYCLONEDX →
      ValidateSBOMData eng fs jsonData =
        ⟨false, [], some "only CycloneDX is currenty supported"⟩) := by
  have hd : detectSBOMType jsonData = Except.ok s := by
    simp [detectSBOMType, ParseJSON, goUnmarshalMap, hp, hb]
  refine ⟨hd, ?_, ?_⟩
  · simp [DetectSBOMType, goUnmarshalMap, hp, hb]
  · intro eng fs hs
    simp [ValidateSBOMData, isJSON, hp, hd, hs]

/-- Witness for claim C9 with the made-up format name FooBar. -/
theorem detect_returns_bomFormat_verbatim_witness :
    detectSBOMType "\x7b\"bomFormat\": \"FooBar\"\x7d" = Except.ok "FooBar" ∧
    ValidateSBOMData trivialEngine [] "\x7b\"bomFormat\": \"FooBar\"\x7d" =
      ⟨false, [], some "only CycloneDX is currenty supported"⟩ :=
  ⟨(detect_returns_bomFormat_verbatim "\x7b\"bomFormat\": \"FooBar\"\x7d"
      [("bomFormat", JsonVal.str "FooBar")] "FooBar" rfl rfl).1,
    (detect_returns_bomFormat_verbatim "\x7b\"bomFormat\": \"FooBar\"\x7d"
      [("bomFormat", JsonVal.str "FooBar")] "FooBar" rfl rfl).2.2
      trivialEngine [] (by decide)⟩

/-- Claim C3: for every SPDX version marker of the form SPDX-<v>,
getSPDXVersion yields exactly <v>, splitting only at the first hyphen
and keeping the rest verbatim; with no hyphen or an empty suffix it
fails with the invalid-format error. -/
theorem getSPDXVersion_split_first_hyphen :
    (∀ v : String, v ≠ "" →
      getSPDXVersion ("SPDX-" ++ v) = Except.ok v) ∧
    getSPDXVersion "SPDX-" =
      Except.error "invalid SPDX version format: SPDX-" ∧
    (∀ s : String, s.data.contains '-' = false →
      getSPDXVersion s =
        Except.error ("invalid SPDX version format: " ++ s)) := by
  refine ⟨?_, rfl, ?_⟩
  · intro v hv
    have hsplit :
        splitFirstHyphen ('S' :: 'P' :: 'D' :: 'X' :: '-' :: v.data) =
          (['S', 'P', 'D', 'X'], some v.data) :=
      splitFirstHyphen_append ['S', 'P', 'D', 'X'] (by decide) v.data
    have hmk : String.mk v.data = v := rfl
    simp [getSPDXVersion, goSplitN2Hyphen, String.data_append, hsplit, hmk, hv]
  · intro s hs
    have hsplit : splitFirstHyphen s.data = (s.data, none) :=
      splitFirstHyphen_no_hyphen s.data hs
    simp [getSPDXVersion, goSplitN2Hyphen, hsplit]

/-- Witness for claim C3: a suffix with a further hyphen is preserved
verbatim, and the hyphen-free marker SPDX fails. -/
theorem getSPDXVersion_split_first_hyphen_witness :
    getSPDXVersion "SPDX-2.3-extra" = Except.ok "2.3-extra" ∧
    getSPDXVersion "SPDX" = Except.error "invalid SPDX version format: SPDX" :=
  ⟨getSPDXVersion_split_first_hyphen.1 "2.3-extra" (by decide),
    getSPDXVersion_split_first_hyphen.2.2 "SPDX" (by decide)⟩

/-- Claim C4: whenever the structural validator returns without error,
the valid flag holds exactly when the violations list is empty, and a
document the engine finds non-conforming yields false with that
non-empty list and no error; the pipeline-snapshot validateSBOM is the
same function as ValidateSBOM. -/
theorem validateSBOM_valid_iff_empty (eng : SchemaEngine)
    (schemaSBOM sbomData : String) :
    validateSBOM eng schemaSBOM sbomData = ValidateSBOM eng schemaSBOM sbomData ∧
    ((ValidateSBOM eng schemaSBOM sbomData).err = none →
      ((ValidateSBOM eng schemaSBOM sbomData).valid = true ↔
        (ValidateSBOM eng schemaSBOM sbomData).violations = [])) ∧
    (∀ errs : List String, isValidJSON sbomData = true →
      eng.compile schemaSBOM = none →
      eng.validate schemaSBOM sbomData = Except.ok errs → errs ≠ [] →
      ValidateSBOM eng schemaSBOM sbomData = ⟨false, errs, none⟩) := by
  refine ⟨rfl, ?_, ?_⟩
  · intro h
    cases hv : isValidJSON sbomData with
    | false => simp [ValidateSBOM, hv] at h
    | true =>
      cases hc : eng.compile schemaSBOM with
      | some msg => simp [ValidateSBOM, hv, hc] at h
      | none =>
        cases hval : eng.validate schemaSBOM sbomData with
        | error e => simp [ValidateSBOM, hv, hc, hval] at h
        | ok errs =>
          cases errs with
          | nil => simp [ValidateSBOM, hv, hc, hval]
          | cons a l => simp [ValidateSBOM, hv, hc, hval]
  · intro errs hv hc hval hne
    cases errs with
    | nil => exact absurd rfl hne
    | cons a l => simp [ValidateSBOM, hv, hc, hval]

/-- Witness for claim C4: an engine reporting one violation on an
otherwise fine document and schema. -/
theorem validateSBOM_valid_iff_empty_witness :
    ValidateSBOM oneErrEngine "\x7b\x7d" "\x7b\x7d" =
      ⟨false, ["violation"], none⟩ :=
  (validateSBOM_valid_iff_empty oneErrEngine "\x7b\x7d" "\x7b\x7d").2.2
    ["violation"] rfl rfl rfl (by decide)

/-- Claim C7: when schema compilation fails on a document that is valid
JSON, ValidateSBOM fails with the invalid-schema-format error and
produces no violations; and when the document is not valid JSON, it
fails with the invalid-JSON error for every engine, before any schema
compilation is attempted. -/
theorem validateSBOM_schema_compile_error (eng : SchemaEngine)
    (schemaSBOM sbomData msg : String) :
    (eng.compile schemaSBOM = some msg → isValidJSON sbomData = true →
      ValidateSBOM eng schemaSBOM sbomData =
        ⟨false, [], some ("invalid schema format: " ++ msg)⟩) ∧
    (isValidJSON sbomData = false →
      ValidateSBOM eng schemaSBOM sbomData =
        ⟨false, [], some "invalid JSON format"⟩) := by
  constructor
  · intro hc hv
    simp [ValidateSBOM, hv, hc]
  · intro hv
    simp [ValidateSBOM, hv]

/-- Witness for claim C7: a failing compiler on a well-formed document,
and the same engine never reached on a malformed document. -/
theorem validateSBOM_schema_compile_error_witness :
    ValidateSBOM badSchemaEngine "not a schema" "\x7b\x7d" =
      ⟨false, [], some "invalid schema format: compile failed"⟩ ∧
    ValidateSBOM badSchemaEngine "not a schema" "" =
      ⟨false, [], some "invalid JSON format"⟩ :=
  ⟨(validateSBOM_schema_compile_error badSchemaEngine "not a schema" "\x7b\x7d"
      "compile failed").1 rfl rfl,
    (validateSBOM_schema_compile_error badSchemaEngine "not a schema" ""
      "compile failed").2 rfl⟩

/-- Claim C8: schema resolution builds the deterministic lookup key
schemas/cyclonedx/bom-<version>.schema.json; a version absent from the
corpus fails with the not-found error carrying that key, and any dialect
other than CycloneDX fails with the unsupported-type error; the
pipeline-snapshot loadSBOMSchema is the same function. -/
theorem loadSchema_key_and_dialect (fs : List (String × String))
    (version : String) :
    (∀ sbomType : String, sbomType ≠ SBOM_CYCLONEDX →
      LoadSchema fs version sbomType =
        Except.error ("unsupported SBOM type: " ++ sbomType)) ∧
    (fsReadFile fs ("schemas/cyclonedx/bom-" ++ version ++ ".schema.json") = none →
      LoadSchema fs version SBOM_CYCLONEDX =
        Except.error ("failed to read embedded schema file: open " ++
          ("schemas/cyclonedx/bom-" ++ version ++ ".schema.json") ++
          ": file does not exist")) ∧
    (∀ sbomType : String,
      loadSBOMSchema fs version sbomType = LoadSchema fs version sbomType) := by
  refine ⟨?_, ?_, fun _ => rfl⟩
  · intro st hst
    simp [LoadSchema, hst]
  · intro h
    simp [LoadSchema, h]

/-- Witness for claim C8 at version 9.9 over an empty corpus and at the
unsupported dialect spdx. -/
theorem loadSchema_key_and_dialect_witness :
    LoadSchema [] "9.9" "spdx" = Except.error "unsupported SBOM type: spdx" ∧
    LoadSchema [] "9.9" "CycloneDX" =
      Except.error
        "failed to read embedded schema file: open schemas/cyclonedx/bom-9.9.schema.json: file does not exist" :=
  ⟨(loadSchema_key_and_dialect [] "9.9").1 "spdx" (by decide),
    (loadSchema_key_and_dialect [] "9.9").2.1 rfl⟩

/-- Claim C10, counterexample: the input null is syntactically valid
JSON with a non-object top level, yet the pipeline does not fail with a
JSON-parse error: json.Unmarshal accepts null as a nil map and detection
fails with the unknown-SBOM-type error instead. -/
theorem validateSBOMData_null_input_cex :
    parseJSONText "null" = some JsonVal.null ∧
    ValidateSBOMData trivialEngine [] "null" =
      ⟨false, [],
        some "error detecting SBOM Type unknown SBOM type or missing required fields"⟩ :=
  ⟨rfl, rfl⟩

/-- Claim C10, amended: an input that is valid JSON whose top-level
value is neither an object nor the literal null passes the
well-formedness check and fails at the format-detection stage with a
JSON-parse (unmarshal type) error, never with the unsupported-file-format
error; the null input also fails at detection but with the
unknown-SBOM-type error. -/
theorem validateSBOMData_non_object_top_level (eng : SchemaEngine)
    (fs : List (String × String)) (s : String) (v : JsonVal)
    (hp : parseJSONText s = some v)
    (hobj : ∀ kvs, v ≠ JsonVal.obj kvs)
    (hnull : v ≠ JsonVal.null) :
    ValidateSBOMData eng fs s =
      ⟨false, [],
        some ("error detecting SBOM Type " ++
          ("failed to parse JSON: " ++
            ("json: cannot unmarshal " ++ typeName v ++ " into map")))⟩ := by
  cases v with
  | null => exact absurd rfl hnull
  | obj kvs => exact absurd rfl (hobj kvs)
  | bool b =>
    simp [ValidateSBOMData, isJSON, detectSBOMType, ParseJSON, goUnmarshalMap, hp, typeName]
  | num n =>
    simp [ValidateSBOMData, isJSON, detectSBOMType, ParseJSON, goUnmarshalMap, hp, typeName]
  | str t =>
    simp [ValidateSBOMData, isJSON, detectSBOMType, ParseJSON, goUnmarshalMap, hp, typeName]
  | arr l =>
    simp [ValidateSBOMData, isJSON, detectSBOMType, ParseJSON, goUnmarshalMap, hp, typeName]

/-- Witness for the amended claim C10 at the array input. -/
theorem validateSBOMData_non_object_top_level_witness :
    ValidateSBOMData trivialEngine [] "[1]" =
      ⟨false, [],
        some "error detecting SBOM Type failed to parse JSON: json: cannot unmarshal array into map"⟩ :=
  validateSBOMData_non_object_top_level trivialEngine [] "[1]"
    (JsonVal.arr [JsonVal.num "1"]) rfl
    (fun _ h => JsonVal.noConfusion h) (fun h => JsonVal.noConfusion h)
